import Mathlib

/-!
Verification of the Amass enumeration core (data manager stage in
`enum/store.go` and the subdomain classifier stage) against its
natural-language specification.

The Go code is shallowly embedded: each stage is a pure Lean function from
its inputs (request, configuration oracles, cache/resolver oracles) to the
ordered list of externally visible effects (graph upserts, pipeline
re-injections, queue operations, log lines) together with the value it
returns.  External collaborators (configuration predicates, the public
suffix list, the ASN cache, the resolver pools, the graph store's error
behaviour, the regex extractors) are parameters of the embedding, so the
theorems quantify over all of their behaviours.  Machine strings are Lean
strings; Go's ASCII-relevant string functions are re-implemented
structurally so that everything evaluates inside the kernel.
-/

namespace AmassEnum

/-! ### Go string helpers

These mirror the string operations used by `enum/store.go`:
`strings.ToLower`, `strings.Trim(s, ".")`, `strings.TrimSpace`, and the
`resolve.RemoveLastDot` helper.  `goToLower` models Go's `strings.ToLower`
on the ASCII range, which is the range exercised by DNS names. -/

/-- Lowercase a single ASCII character, as Go's `strings.ToLower` does on
the ASCII range. -/
def lowerChar (c : Char) : Char :=
  if 'A' ≤ c ∧ c ≤ 'Z' then Char.ofNat (c.toNat + 32) else c

/-- Model of Go `strings.ToLower` (ASCII range). -/
def goToLower (s : String) : String :=
  String.mk (s.toList.map lowerChar)

/-- Character class used by Go `strings.TrimSpace` (ASCII subset). -/
def isSpaceChar (c : Char) : Bool :=
  c == ' ' || c == '\t' || c == '\n' || c == '\r'

/-- Model of Go `strings.TrimSpace` (ASCII whitespace). -/
def goTrimSpace (s : String) : String :=
  String.mk (((s.toList.dropWhile isSpaceChar).reverse.dropWhile isSpaceChar).reverse)

/-- Dot character test, the cutset of `strings.Trim(s, ".")`. -/
def isDotChar (c : Char) : Bool := c == '.'

/-- Model of Go `strings.Trim(s, ".")`: remove every leading and trailing
dot. -/
def trimDots (s : String) : String :=
  String.mk (((s.toList.dropWhile isDotChar).reverse.dropWhile isDotChar).reverse)

/-- The normalisation `enum/store.go` applies to every record name and
record data: `strings.Trim(strings.ToLower(s), ".")`. -/
def normName (s : String) : String := trimDots (goToLower s)

/-- Model of `resolve.RemoveLastDot`: strip one trailing dot if present. -/
def removeLastDot (s : String) : String :=
  match s.toList.reverse with
  | '.' :: rest => String.mk rest.reverse
  | _ => s

/-- Model of Go `strings.Split(s, ".")`. -/
def splitDotsChars : List Char → List (List Char)
  | [] => [[]]
  | c :: cs =>
    if c = '.' then [] :: splitDotsChars cs
    else
      match splitDotsChars cs with
      | [] => [[c]]
      | w :: ws => (c :: w) :: ws

/-- Split a string on `.` exactly like Go `strings.Split(s, ".")`. -/
def splitDots (s : String) : List String :=
  (splitDotsChars s.toList).map String.mk

/-- Model of Go `strings.Join(parts, ".")`. -/
def joinDots : List String → String
  | [] => ""
  | [x] => x
  | x :: xs => x ++ "." ++ joinDots xs

/-! ### Request data model (the `requests` package structs used by the core) -/

/-- One DNS answer record attached to a DNSRequest (`requests.DNSAnswer`):
name, numeric record type, and payload data. -/
structure DNSAnswer where
  Name : String
  Rtype : Nat
  Data : String
deriving DecidableEq, Repr

/-- A `requests.DNSRequest` as consumed by the two core stages. -/
structure DNSRequest where
  Name : String
  Domain : String
  Records : List DNSAnswer
  Tag : String
  Source : String
deriving DecidableEq, Repr

/-- A `requests.AddrRequest`. -/
structure AddrRequest where
  Address : String
  InScope : Bool
  Domain : String
  Tag : String
  Source : String
deriving DecidableEq, Repr

/-- A `requests.SubdomainRequest` emitted by the classifier. -/
structure SubdomainRequest where
  Name : String
  Domain : String
  Tag : String
  Source : String
  Times : Nat
deriving DecidableEq, Repr

/-- A `requests.ResolvedRequest` emitted by the classifier. -/
structure ResolvedRequest where
  Name : String
  Domain : String
  Records : List DNSAnswer
  Tag : String
  Source : String
deriving DecidableEq, Repr

/-- Record type constants from `miekg/dns` as used in `dnsRequest`. -/
def typeA : Nat := 1

/-- DNS record type constant for NS. -/
def typeNS : Nat := 2

/-- DNS record type constant for CNAME. -/
def typeCNAME : Nat := 5

/-- DNS record type constant for SOA. -/
def typeSOA : Nat := 6

/-- DNS record type constant for PTR. -/
def typePTR : Nat := 12

/-- DNS record type constant for MX. -/
def typeMX : Nat := 15

/-- DNS record type constant for TXT. -/
def typeTXT : Nat := 16

/-- DNS record type constant for AAAA. -/
def typeAAAA : Nat := 28

/-- DNS record type constant for SRV. -/
def typeSRV : Nat := 33

/-- DNS record type constant for SPF. -/
def typeSPF : Nat := 99

/-- The `requests.DNS` tag constant (external `requests` package). -/
def tagDNS : String := "dns"

/-- The `requests.RIR` tag constant (external `requests` package). -/
def requestsRIR : String := "rir"

/-- The `amassnet.ReservedCIDRDescription` constant (external package). -/
def reservedCIDRDescription : String := "Reserved Network Address Blocks"

/-! ### ASN enrichment worker (`processASNRequests` / `nextInfraInfo` /
`fakePrefix`)

Addresses handled by the worker are modelled structurally: an IPv4 address
is its 32-bit value, an IPv6 address its 128-bit value, and a CIDR network
is a pair of base address and mask length.  `net.IP.Mask` becomes integer
truncation, and `net.ParseCIDR` on a rendered prefix recovers the address
part unchanged and masks it again for the network part, exactly as the Go
standard library does. -/

/-- An IP address: IPv4 as a 32-bit value, IPv6 as a 128-bit value. -/
inductive IPAddr where
  | v4 (a : Nat)
  | v6 (a : Nat)
deriving DecidableEq, Repr

/-- Model of `amassnet.IsIPv6`. -/
def isIPv6 : IPAddr → Bool
  | .v4 _ => false
  | .v6 _ => true

/-- Model of `ip.Mask(net.CIDRMask(bits, total))`: keep the top `bits`
bits and zero the rest. -/
def maskAddr (ip : IPAddr) (bits : Nat) : IPAddr :=
  match ip with
  | .v4 a => .v4 (a / 2 ^ (32 - bits) * 2 ^ (32 - bits))
  | .v6 a => .v6 (a / 2 ^ (128 - bits) * 2 ^ (128 - bits))

/-- A CIDR network: base address plus mask length. -/
structure CIDR where
  net : IPAddr
  bits : Nat
deriving DecidableEq, Repr

/-- Embedding of `fakePrefix` from `enum/store.go`: mask the address to
/24 for IPv4 or /48 for IPv6 and pair it with the mask length. -/
def fakeCIDR (addr : IPAddr) : CIDR :=
  let bits : Nat := if isIPv6 addr then 48 else 24
  ⟨maskAddr addr bits, bits⟩

/-- The address part `net.ParseCIDR` returns for a rendered prefix: the
address exactly as written in the prefix string. -/
def parseCIDRFirst (c : CIDR) : IPAddr := c.net

/-- The network part `net.ParseCIDR` returns: the written address masked
by the written mask length. -/
def parseCIDRNet (c : CIDR) : CIDR := ⟨maskAddr c.net c.bits, c.bits⟩

/-- The fields of an ASN cache record that `nextInfraInfo` reads from
`Sys.Cache().AddrSearch` (a `requests.ASNRequest`). -/
structure ASNInfo where
  ASN : Int
  Cidr : CIDR
  Description : String
  Source : String
deriving DecidableEq, Repr

/-- The `requests.ASNRequest` written back into the ASN cache by the
fallback path of `nextInfraInfo`. -/
structure ASNUpdate where
  Address : IPAddr
  ASN : Int
  Cidr : CIDR
  Description : String
  Tag : String
  Source : String
deriving DecidableEq, Repr

/-- Externally visible actions of the ASN worker, in program order. -/
inductive WorkerEvent where
  | upsertInfra (asn : Int) (desc : String) (addr : IPAddr) (cidr : CIDR) (source uuid : String)
  | sendASN (addr : IPAddr)
  | cacheUpdate (u : ASNUpdate)
  | sleepSec
deriving DecidableEq, Repr

/-- The fallback tail of `nextInfraInfo`: synthesize ASN 0 / "Unknown" /
"RIR" with the fake prefix, upsert it, and write it into the ASN cache
with the Address field set to the parsed network start. -/
def fallbackEvents (addr : IPAddr) (uuid : String) : List WorkerEvent :=
  let cidr := fakeCIDR addr
  [WorkerEvent.upsertInfra 0 "Unknown" addr cidr "RIR" uuid,
   WorkerEvent.cacheUpdate
     ⟨parseCIDRFirst cidr, 0, parseCIDRNet cidr, "Unknown", requestsRIR, "RIR"⟩]

/-- The 30-iteration poll loop of `nextInfraInfo`.  `probe k` is the
result of the (k+1)-th `AddrSearch` call for this address; the loop
starts at probe index `k` with `fuel` iterations remaining and sleeps one
second after each miss. -/
def pollCache (probe : Nat → Option ASNInfo) (addr : IPAddr) (uuid : String)
    (k : Nat) : Nat → List WorkerEvent
  | 0 => fallbackEvents addr uuid
  | fuel + 1 =>
    match probe k with
    | some r => [WorkerEvent.upsertInfra r.ASN r.Description addr r.Cidr r.Source uuid]
    | none => WorkerEvent.sleepSec :: pollCache probe addr uuid (k + 1) fuel

/-- Embedding of `nextInfraInfo` for one dequeued address request:
re-probe the cache (probe 0); on a miss emit the `ASNRequest` and poll
probes 1..30; after 30 misses run the fallback. -/
def nextInfraInfo (probe : Nat → Option ASNInfo) (addr : IPAddr) (uuid : String) :
    List WorkerEvent :=
  match probe 0 with
  | some r => [WorkerEvent.upsertInfra r.ASN r.Description addr r.Cidr r.Source uuid]
  | none => WorkerEvent.sendASN addr :: pollCache probe addr uuid 1 30

/-- Recognise an infrastructure upsert among worker events. -/
def isInfraUpsert : WorkerEvent → Bool
  | .upsertInfra _ _ _ _ _ _ => true
  | _ => false

/-- The infrastructure upserts contained in a worker event list. -/
def infraUpserts (evs : List WorkerEvent) : List WorkerEvent :=
  evs.filter isInfraUpsert

/-- The ASN cache updates contained in a worker event list. -/
def cacheUpdates (evs : List WorkerEvent) : List ASNUpdate :=
  evs.filterMap fun e =>
    match e with
    | .cacheUpdate u => some u
    | _ => none

/-! ### Data manager (`dataManager.Process`, `dnsRequest`, `addrRequest`)

`ctx` is modelled as not cancelled (every claim about this stage is
conditioned on a non-cancelled context).  The fields of `dataManager` and
its external collaborators become an environment of oracles, and each
graph upsert is an event whose error outcome is chosen by the oracle
`graphErr`, so the theorems hold for every behaviour of the graph store. -/

/-- A call into the graph store made by the data manager. -/
inductive GraphWrite where
  | cname (fqdn target source uuid : String)
  | a (fqdn addr source uuid : String)
  | aaaa (fqdn addr source uuid : String)
  | ptr (fqdn target source uuid : String)
  | srv (fqdn service target source uuid : String)
  | ns (fqdn target source uuid : String)
  | mx (fqdn target source uuid : String)
  | infra (asn : Int) (desc addr cidr source uuid : String)
deriving DecidableEq, Repr

/-- Externally visible actions of the data manager stage, in program
order: graph upserts, pipeline re-injections through `nameSrc`, the
missed-wildcard hook, queueing for the ASN worker, and logging. -/
inductive Event where
  | upsert (w : GraphWrite)
  | reinjectDNS (r : DNSRequest)
  | reinjectAddr (r : AddrRequest)
  | missedWildcards (addr : String)
  | enqueue (r : AddrRequest)
  | logged (msg : String)
deriving DecidableEq, Repr

/-- Cache record fields read by `addrRequest` from `AddrSearch`. -/
structure CacheRec where
  ASN : Int
  Cidr : String
  Description : String
  Source : String
deriving DecidableEq, Repr

/-- The collaborators of the data manager: configuration predicates, the
public suffix list, the session UUID, the graph store's identity and
error behaviour, the regex extractors of `findNamesAndAddresses`, the
reserved-range classifier, and the ASN cache probe used by
`addrRequest`. -/
structure Env where
  blacklisted : String → Bool
  whichDomain : String → String
  inScope : String → Bool
  etld : String → Option String
  uuid : String
  graphName : String
  graphErr : GraphWrite → Option String
  findIPv4 : String → List String
  findSubNames : String → List String
  reservedAddr : String → Option String
  cacheSearch : String → Option CacheRec

/-- Record access `req.Records[recidx]` as performed by the insert
helpers. -/
def recAt (req : DNSRequest) (i : Nat) : DNSAnswer :=
  req.Records.getD i ⟨"", 0, ""⟩

/-- Wrap a graph-store error the way the insert helpers do with
`fmt.Errorf("%s failed to insert ...: %v", dm.enum.graph, err)`. -/
def upsertWith (env : Env) (what : String) (w : GraphWrite) : Option String :=
  match env.graphErr w with
  | some e => some (env.graphName ++ " failed to insert " ++ what ++ ": " ++ e)
  | none => none

/-- Embedding of `insertCNAME`: extract the target from the (already
normalised) record data, resolve its registrable domain, re-inject a
DNSRequest for the target, and upsert the CNAME edge. -/
def insertCNAME (env : Env) (req : DNSRequest) (recidx : Nat) :
    List Event × Option String :=
  let target := removeLastDot (recAt req recidx).Data
  if target = "" then
    ([], some "failed to extract a FQDN from the DNS answer data")
  else
    match env.etld target with
    | none => ([], some "failed to extract a domain name from the FQDN")
    | some dom =>
      if dom = "" then
        ([], some "failed to extract a domain name from the FQDN")
      else
        let w := GraphWrite.cname req.Name target req.Source env.uuid
        ([Event.reinjectDNS ⟨target, goToLower dom, [], tagDNS, "DNS"⟩, Event.upsert w],
         upsertWith env "CNAME" w)

/-- Embedding of `insertA`. -/
def insertA (env : Env) (req : DNSRequest) (recidx : Nat) :
    List Event × Option String :=
  let addr := goTrimSpace (recAt req recidx).Data
  if addr = "" then
    ([], some "failed to extract an IP address from the DNS answer data")
  else
    let w := GraphWrite.a req.Name addr req.Source env.uuid
    ([Event.missedWildcards addr,
      Event.reinjectAddr ⟨addr, true, req.Domain, tagDNS, "DNS"⟩,
      Event.upsert w],
     upsertWith env "A record" w)

/-- Embedding of `insertAAAA`. -/
def insertAAAA (env : Env) (req : DNSRequest) (recidx : Nat) :
    List Event × Option String :=
  let addr := goTrimSpace (recAt req recidx).Data
  if addr = "" then
    ([], some "failed to extract an IP address from the DNS answer data")
  else
    let w := GraphWrite.aaaa req.Name addr req.Source env.uuid
    ([Event.missedWildcards addr,
      Event.reinjectAddr ⟨addr, true, req.Domain, tagDNS, "DNS"⟩,
      Event.upsert w],
     upsertWith env "AAAA record" w)

/-- Embedding of `insertPTR`. -/
def insertPTR (env : Env) (req : DNSRequest) (recidx : Nat) :
    List Event × Option String :=
  let target := removeLastDot (recAt req recidx).Data
  if target = "" then
    ([], some "failed to extract a FQDN from the DNS answer data")
  else
    let dom := goToLower (env.whichDomain target)
    if dom = "" then ([], none)
    else
      let w := GraphWrite.ptr req.Name target req.Source env.uuid
      ([Event.reinjectDNS ⟨target, dom, [], tagDNS, "Reverse DNS"⟩, Event.upsert w],
       upsertWith env "PTR record" w)

/-- Embedding of `insertSRV`. -/
def insertSRV (env : Env) (req : DNSRequest) (recidx : Nat) :
    List Event × Option String :=
  let service := removeLastDot (recAt req recidx).Name
  let target := removeLastDot (recAt req recidx).Data
  if target = "" ∨ service = "" then
    ([], some "failed to extract service info from the DNS answer data")
  else
    let w := GraphWrite.srv req.Name service target req.Source env.uuid
    ((if env.whichDomain target ≠ "" then
        [Event.reinjectDNS ⟨target, env.whichDomain target, [], tagDNS, "DNS"⟩]
      else []) ++ [Event.upsert w],
     upsertWith env "SRV record" w)

/-- Embedding of `insertNS` (note: the target is the raw record data,
with no `RemoveLastDot`). -/
def insertNS (env : Env) (req : DNSRequest) (recidx : Nat) :
    List Event × Option String :=
  let target := (recAt req recidx).Data
  if target = "" then
    ([], some "failed to extract NS info from the DNS answer data")
  else
    match env.etld target with
    | none => ([], some "failed to extract a domain name from the FQDN")
    | some dom =>
      if dom = "" then
        ([], some "failed to extract a domain name from the FQDN")
      else
        let w := GraphWrite.ns req.Name target req.Source env.uuid
        ((if target ≠ goToLower dom then
            [Event.reinjectDNS ⟨target, goToLower dom, [], tagDNS, "DNS"⟩]
          else []) ++ [Event.upsert w],
         upsertWith env "NS record" w)

/-- Embedding of `insertMX`. -/
def insertMX (env : Env) (req : DNSRequest) (recidx : Nat) :
    List Event × Option String :=
  let target := removeLastDot (recAt req recidx).Data
  if target = "" then
    ([], some "failed to extract a FQDN from the DNS answer data")
  else
    match env.etld target with
    | none => ([], some "failed to extract a domain name from the FQDN")
    | some dom =>
      if dom = "" then
        ([], some "failed to extract a domain name from the FQDN")
      else
        let w := GraphWrite.mx req.Name target req.Source env.uuid
        ((if target ≠ goToLower dom then
            [Event.reinjectDNS ⟨target, goToLower dom, [], tagDNS, "DNS"⟩]
          else []) ++ [Event.upsert w],
         upsertWith env "MX record" w)

/-- Embedding of `findNamesAndAddresses`: every IPv4 regex match becomes
an AddrRequest (with the `InScope` field left at its zero value `false`),
and every subdomain regex match whose `WhichDomain` lookup is non-empty
becomes a DNSRequest. -/
def findNamesAndAddresses (env : Env) (data dom : String) : List Event :=
  (env.findIPv4 data).map
    (fun ip => Event.reinjectAddr ⟨ip, false, dom, tagDNS, "DNS"⟩)
  ++ (env.findSubNames data).filterMap (fun nm =>
      let d := goToLower (env.whichDomain nm)
      if d = "" then none
      else some (Event.reinjectDNS ⟨nm, d, [], tagDNS, "DNS"⟩))

/-- Embedding of `insertTXT`. -/
def insertTXT (env : Env) (req : DNSRequest) (recidx : Nat) :
    List Event × Option String :=
  ((if env.inScope req.Name then
      findNamesAndAddresses env (recAt req recidx).Data req.Domain
    else []), none)

/-- Embedding of `insertSOA`. -/
def insertSOA (env : Env) (req : DNSRequest) (recidx : Nat) :
    List Event × Option String :=
  ((if env.inScope req.Name then
      findNamesAndAddresses env (recAt req recidx).Data req.Domain
    else []), none)

/-- Embedding of `insertSPF`. -/
def insertSPF (env : Env) (req : DNSRequest) (recidx : Nat) :
    List Event × Option String :=
  ((if env.inScope req.Name then
      findNamesAndAddresses env (recAt req recidx).Data req.Domain
    else []), none)

/-- The record-type dispatch of the second loop of `dnsRequest`.  A type
matching no case produces no effect and no error. -/
def dispatch (env : Env) (req : DNSRequest) (i : Nat) :
    List Event × Option String :=
  match (recAt req i).Rtype with
  | 1 => insertA env req i
  | 28 => insertAAAA env req i
  | 12 => insertPTR env req i
  | 33 => insertSRV env req i
  | 2 => insertNS env req i
  | 15 => insertMX env req i
  | 16 => insertTXT env req i
  | 6 => insertSOA env req i
  | 99 => insertSPF env req i
  | _ => ([], none)

/-- The second loop of `dnsRequest`: dispatch the records at the given
indices in order, halting on the first error. -/
def runInserts (env : Env) (req : DNSRequest) : List Nat → List Event × Option String
  | [] => ([], none)
  | i :: rest =>
    let r := dispatch env req i
    match r.2 with
    | some e => (r.1, some e)
    | none =>
      let r2 := runInserts env req rest
      (r.1 ++ r2.1, r2.2)

/-- Normalise one record as the first loop of `dnsRequest` does:
`Records[i].Name = strings.Trim(strings.ToLower(r.Name), ".")` and the
same for `Data`. -/
def normalizeRec (r : DNSAnswer) : DNSAnswer :=
  ⟨normName r.Name, r.Rtype, normName r.Data⟩

/-- The first loop of `dnsRequest`: normalise records in order
(`done` holds the already-normalised records, reversed); on the first
CNAME record, stop and insert only that CNAME; if no CNAME is found,
dispatch every (normalised) record. -/
def scanRecords (env : Env) (req : DNSRequest) (done : List DNSAnswer) :
    List DNSAnswer → List Event × Option String
  | [] =>
    let req2 : DNSRequest := { req with Records := done.reverse }
    runInserts env req2 (List.range done.length)
  | r :: rest =>
    let nr := normalizeRec r
    if r.Rtype = typeCNAME then
      insertCNAME env { req with Records := done.reverse ++ nr :: rest } done.length
    else
      scanRecords env req (nr :: done) rest

/-- Embedding of `dataManager.dnsRequest` (non-cancelled context). -/
def dnsRequest (env : Env) (req : DNSRequest) : List Event × Option String :=
  if env.blacklisted req.Name then ([], none)
  else scanRecords env req [] req.Records

/-- Embedding of `dataManager.addrRequest` (non-cancelled context).  The
reserved-range branch and the cache-hit branch pass the upsert to the
oracle so its error is returned exactly as in Go; a double miss enqueues
the request for the ASN worker. -/
def addrRequest (env : Env) (req : AddrRequest) : List Event × Option String :=
  if req.InScope = false ∨ env.uuid = "" then ([], none)
  else
    match env.reservedAddr req.Address with
    | some cidr =>
      let w := GraphWrite.infra 0 reservedCIDRDescription req.Address cidr "RIR" env.uuid
      ([Event.upsert w], env.graphErr w)
    | none =>
      match env.cacheSearch req.Address with
      | some r =>
        let w := GraphWrite.infra r.ASN r.Description req.Address r.Cidr r.Source env.uuid
        ([Event.upsert w], env.graphErr w)
      | none => ([Event.enqueue req], none)

/-- The pipeline data accepted by `dataManager.Process`; any other data
type passes through untouched. -/
inductive PData where
  | dns (r : DNSRequest)
  | addr (r : AddrRequest)
  | other
deriving DecidableEq, Repr

/-- The dedup identifier `Process` derives from a datum: the Name of a
DNSRequest, the Address of an AddrRequest, empty otherwise. -/
def pid : PData → String
  | .dns r => r.Name
  | .addr r => r.Address
  | .other => ""

/-- The side effects `Process` performs before consulting the filter: the
record or address handling plus the logging of its returned error. -/
def sideEffects (env : Env) : PData → List Event
  | .dns r =>
    let o := dnsRequest env r
    o.1 ++ (match o.2 with | some e => [Event.logged e] | none => [])
  | .addr r =>
    let o := addrRequest env r
    o.1 ++ (match o.2 with | some e => [Event.logged e] | none => [])
  | .other => []

/-- Embedding of `dataManager.Process` (non-cancelled context).  The
stable bloom filter is idealised as the exact set of identifiers already
seen; `TestAndAdd` tests membership and inserts.  The result is the
event list, the forwarded datum (none when swallowed), the new filter
contents, and the stage's error return, which is always nil in Go. -/
def ProcessStep (env : Env) (fl : List String) (d : PData) :
    List Event × Option PData × List String × Option String :=
  let evs := sideEffects env d
  let id := pid d
  if id = "" then (evs, some d, fl, none)
  else if id ∈ fl then (evs, none, id :: fl, none)
  else (evs, some d, id :: fl, none)

/-! ### Subdomain classifier (`subdomainTask.Process` / `checkForSubdomains`
/ `timesManager`)

The times manager serialises a map from parent subdomain to occurrence
count; it is modelled as a function with default 0, incremented on each
query.  The wildcard probe and the graph's CNAME-node predicate are
oracles, since both are external calls. -/

/-- Collaborators of the classifier stage: the scope predicate, the
recursion threshold, the wildcard-under-parent probe, and the graph
store's `IsCNAMENode` predicate. -/
structure ClsEnv where
  inScope : String → Bool
  minForRecursive : Nat
  wildcardTest : String → String → Bool
  isCNAME : String → Bool

/-- Mutable state owned by the classifier: the CNAME set, the wildcard
set, and the occurrence map of the times manager (0 means absent). -/
structure SubState where
  cnames : List String
  withinWildcards : List String
  counts : String → Nat

/-- Externally visible actions of the classifier stage. -/
inductive SubEvent where
  | sendSubdomain (r : SubdomainRequest)
  | sendResolved (r : ResolvedRequest)
  | toRoot (r : SubdomainRequest)
deriving DecidableEq, Repr

/-- The parent subdomain `checkForSubdomains` derives:
`strings.TrimSpace(strings.Join(nlabels[1:], "."))`. -/
def parentSub (nm : String) : String :=
  goTrimSpace (joinDots (splitDots nm).tail)

/-- One exchange with the times manager for `sub`: the returned count and
the updated map (first observation yields 1, later ones increment). -/
def timesFor (st : SubState) (sub : String) : Nat × SubState :=
  let t := st.counts sub + 1
  (t, { st with counts := fun x => if x = sub then t else st.counts x })

/-- A label that marks service subdomains in `subdomainTask.Process`. -/
def isServiceLabel (l : String) : Bool :=
  goToLower l = "_tcp" || goToLower l = "_udp" || goToLower l = "_tls"

/-- Whether any label of the name is a service label. -/
def hasServiceLabel (nm : String) : Bool :=
  (splitDots nm).any isServiceLabel

/-- Embedding of `checkForSubdomains`: label checks, occurrence count,
wildcard / CNAME suppression, threshold check, and emission of the
SubdomainRequest (also to the pipeline's root channel when the count is
1).  Returns the forward flag, the emitted events, and the new state. -/
def checkForSubdomains (env : ClsEnv) (st : SubState) (req : DNSRequest) :
    Bool × List SubEvent × SubState :=
  let nlabels := splitDots req.Name
  if nlabels.length < 2 then (false, [], st)
  else
    let dlabels := splitDots req.Domain
    if nlabels.length - 1 < dlabels.length then (false, [], st)
    else
      let sub := parentSub req.Name
      let r := timesFor st sub
      let times := r.1
      let st1 := r.2
      if times = 1 ∧ env.wildcardTest sub req.Domain then
        (false, [], { st1 with withinWildcards := sub :: st1.withinWildcards })
      else if 1 < times ∧ sub ∈ st1.withinWildcards then (false, [], st1)
      else if times = 1 ∧ env.isCNAME sub then
        (false, [], { st1 with cnames := sub :: st1.cnames })
      else if 1 < times ∧ sub ∈ st1.cnames then (false, [], st1)
      else if env.minForRecursive < times then (true, [], st1)
      else
        let subreq : SubdomainRequest := ⟨sub, req.Domain, req.Tag, req.Source, times⟩
        (true,
         SubEvent.sendSubdomain subreq ::
           (if times = 1 then [SubEvent.toRoot subreq] else []),
         st1)

/-- Embedding of `subdomainTask.Process` (non-cancelled context): data of
another type passes through; out-of-scope or service names are swallowed;
otherwise `checkForSubdomains` runs and, when it reports success, a
ResolvedRequest mirroring the input is emitted; the DNSRequest itself is
always forwarded. -/
def subProcess (env : ClsEnv) (st : SubState) (d : PData) :
    Option PData × List SubEvent × SubState :=
  match d with
  | PData.dns req =>
    if ¬ env.inScope req.Name then (none, [], st)
    else if hasServiceLabel req.Name then (none, [], st)
    else
      let r := checkForSubdomains env st req
      if r.1 then
        (some (PData.dns req),
         r.2.1 ++ [SubEvent.sendResolved ⟨req.Name, req.Domain, req.Records, req.Tag, req.Source⟩],
         r.2.2)
      else (some (PData.dns req), r.2.1, r.2.2)
  | d2 => (some d2, [], st)

/-! ### Forward queries of the wildcard test (`fwdQuery` /
`subWithinWildcard`)

Each resolver pool is an oracle stream of responses indexed by how many
queries that pool has answered so far; `none` models a transport error
from `QueryBlocking`.  The state records both counters and the ordered
trace of which pool every query went to. -/

/-- The response fields `fwdQuery` inspects. -/
structure DNSResp where
  rcode : Nat
  answers : Nat
deriving DecidableEq, Repr

/-- The `dns.RcodeSuccess` constant. -/
def rcodeSuccess : Nat := 0

/-- The `dns.RcodeNameError` (NXDOMAIN) constant. -/
def rcodeNameError : Nat := 3

/-- Which resolver pool a query was sent to. -/
inductive Pool where
  | general
  | trusted
deriving DecidableEq, Repr

/-- Oracle streams for the two resolver pools. -/
structure QEnv where
  general : Nat → Option DNSResp
  trusted : Nat → Option DNSResp

/-- Query-consumption state: per-pool counters and the pool trace. -/
structure QState where
  g : Nat
  t : Nat
  trace : List Pool
deriving DecidableEq, Repr

/-- Send one query to a pool, consuming its next oracle response. -/
def askPool (env : QEnv) (p : Pool) (s : QState) : Option DNSResp × QState :=
  match p with
  | Pool.general => (env.general s.g, ⟨s.g + 1, s.t, s.trace ++ [Pool.general]⟩)
  | Pool.trusted => (env.trusted s.t, ⟨s.g, s.t + 1, s.trace ++ [Pool.trusted]⟩)

/-- Outcome of `fwdQuery`: a definitive failure message or an answered
response. -/
inductive QOut where
  | failed (msg : String)
  | ok (resp : DNSResp)
deriving DecidableEq, Repr

/-- The retry loop of `fwdQuery` (`for attempts := 1; attempts < 50 &&
resp.Rcode != dns.RcodeSuccess; attempts++`).  Both occurrences of the
loop in the Go source query `r.enum.Sys.Resolvers()` — the general pool —
which is why this loop takes no pool argument.  `fuel` is the number of
remaining attempts (49 at entry). -/
def genRetry (env : QEnv) (resp : DNSResp) (s : QState) : Nat → QOut × QState
  | 0 => (QOut.ok resp, s)
  | fuel + 1 =>
    if resp.rcode = rcodeSuccess then (QOut.ok resp, s)
    else
      match askPool env Pool.general s with
      | (none, s2) => (QOut.failed "name does not exist", s2)
      | (some r, s2) =>
        if r.rcode = rcodeNameError then (QOut.failed "name does not exist", s2)
        else if r.rcode = rcodeSuccess ∧ r.answers = 0 then
          (QOut.failed "zero answers returned", s2)
        else genRetry env r s2 fuel

/-- One phase of `fwdQuery`: the initial query to pool `p`, the failure
checks, the (general-pool) retry loop, and the final response-code
check.  The Go function runs this once with the general pool and then
once with the trusted pool. -/
def fwdPhase (env : QEnv) (p : Pool) (s : QState) : QOut × QState :=
  match askPool env p s with
  | (none, s2) => (QOut.failed "name does not exist", s2)
  | (some r, s2) =>
    if r.rcode = rcodeNameError then (QOut.failed "name does not exist", s2)
    else if r.rcode = rcodeSuccess ∧ r.answers = 0 then
      (QOut.failed "zero answers returned", s2)
    else
      match genRetry env r s2 49 with
      | (QOut.failed m, s3) => (QOut.failed m, s3)
      | (QOut.ok r2, s3) =>
        if r2.rcode ≠ rcodeSuccess then (QOut.failed "query failed", s3)
        else (QOut.ok r2, s3)

/-- Embedding of `subdomainTask.fwdQuery`: run the protocol through the
general pool; on success run it again starting with one query to the
trusted pool, and return that second result. -/
def fwdQuery (env : QEnv) (s : QState) : QOut × QState :=
  match fwdPhase env Pool.general s with
  | (QOut.failed m, s2) => (QOut.failed m, s2)
  | (QOut.ok _, s2) => fwdPhase env Pool.trusted s2

/-- Embedding of `subWithinWildcard`: try each initial query type; a
query that succeeds with answers and is flagged by the trusted pool's
wildcard detector makes the parent a wildcard child. -/
def subWithinWildcard (env : QEnv) (detect : DNSResp → String → Bool)
    (dom : String) : List Nat → QState → Bool × QState
  | [], s => (false, s)
  | _ :: rest, s =>
    match fwdQuery env s with
    | (QOut.ok r, s2) =>
      if 0 < r.answers ∧ detect r dom then (true, s2)
      else subWithinWildcard env detect dom rest s2
    | (QOut.failed _, s2) => subWithinWildcard env detect dom rest s2

/-- Whether a query went to the general pool. -/
def isGeneralPool : Pool → Bool
  | Pool.general => true
  | Pool.trusted => false

/-- All-general test for a pool trace segment. -/
def allGeneral (l : List Pool) : Bool :=
  l.all isGeneralPool

/-- Shape of a complete `fwdQuery` pool trace: a non-empty block of at
most 50 general-pool queries, optionally followed by exactly one
trusted-pool query and at most 49 further general-pool queries. -/
def traceShapeOK (tr : List Pool) : Bool :=
  let k := (tr.takeWhile isGeneralPool).length
  let rest := tr.drop k
  decide (1 ≤ k) && decide (k ≤ 50) &&
    (match rest with
     | [] => true
     | Pool.trusted :: rest2 => allGeneral rest2 && decide (rest2.length ≤ 49)
     | _ => false)

/-! ### Concrete fixtures used by witnesses and counterexamples -/

/-- A baseline environment for concrete runs: nothing blacklisted,
nothing in scope, all oracles empty, session UUID "u", graph identity
"g". -/
def baseEnv : Env where
  blacklisted := fun _ => false
  whichDomain := fun _ => ""
  inScope := fun _ => false
  etld := fun _ => none
  uuid := "u"
  graphName := "g"
  graphErr := fun _ => none
  findIPv4 := fun _ => []
  findSubNames := fun _ => []
  reservedAddr := fun _ => none
  cacheSearch := fun _ => none

/-- Environment whose public-suffix oracle always answers
"example.net". -/
def envEx : Env := { baseEnv with etld := fun _ => some "example.net" }

/-- A request whose first record is a CNAME with a well-formed target and
whose second record is an A record — scenario S1 of the spec. -/
def reqW1 : DNSRequest :=
  ⟨"www.example.com", "example.com",
   [⟨"www.example.com", 5, "CDN.Example.NET."⟩, ⟨"www.example.com", 1, "1.2.3.4"⟩],
   "dns", "DNS"⟩

/-- A request whose first record is a CNAME with empty data next to an A
record sibling. -/
def reqC1 : DNSRequest :=
  ⟨"www.example.com", "example.com",
   [⟨"www.example.com", 5, ""⟩, ⟨"www.example.com", 1, "1.2.3.4"⟩],
   "dns", "DNS"⟩

/-- A request with an NS record whose data carries a trailing space. -/
def reqC6 : DNSRequest :=
  ⟨"x.example.org", "example.org",
   [⟨"x.example.org", 2, "NS1.EXAMPLE.NET "⟩],
   "dns", "src"⟩

/-- A request with a single well-formed A record. -/
def reqW6 : DNSRequest :=
  ⟨"a.example.com", "example.com",
   [⟨"A.EXAMPLE.COM.", 1, "1.2.3.4"⟩],
   "dns", "src"⟩

/-- A DNSRequest whose Name — the dedup identifier — is empty. -/
def emptyNameReq : DNSRequest := ⟨"", "", [], "", ""⟩

/-- A DNSRequest with a non-empty Name and no records. -/
def reqW2 : DNSRequest := ⟨"a.com", "a.com", [], "dns", "src"⟩

/-- Environment whose graph store rejects every A-record upsert. -/
def envC9 : Env :=
  { baseEnv with
    graphErr := fun w =>
      match w with
      | GraphWrite.a _ _ _ _ => some "boom"
      | _ => none }

/-- A request with two A records; the graph error on the first must stop
the second from being processed. -/
def reqC9 : DNSRequest :=
  ⟨"a.example.com", "example.com",
   [⟨"a.example.com", 1, "1.1.1.1"⟩, ⟨"a.example.com", 1, "2.2.2.2"⟩],
   "dns", "src"⟩

/-- Classifier environment: everything in scope, recursion threshold 2,
no wildcards, no CNAME nodes. -/
def clsEnvW : ClsEnv where
  inScope := fun _ => true
  minForRecursive := 2
  wildcardTest := fun _ _ => false
  isCNAME := fun _ => false

/-- Fresh classifier state. -/
def stW4 : SubState where
  cnames := []
  withinWildcards := []
  counts := fun _ => 0

/-- Classifier state in which "sub.example.com" was inserted into the
wildcard set on its first observation. -/
def stW8 : SubState where
  cnames := []
  withinWildcards := ["sub.example.com"]
  counts := fun x => if x = "sub.example.com" then 1 else 0

/-- A resolved name one label below "sub.example.com". -/
def reqW4 : DNSRequest := ⟨"a.sub.example.com", "example.com", [], "dns", "src"⟩

/-- Environment whose IPv4 extractor finds one address in any payload. -/
def env10 : Env := { baseEnv with findIPv4 := fun _ => ["10.0.0.1"] }

/-- The AddrRequest `findNamesAndAddresses` builds for that address. -/
def addrW10 : AddrRequest := ⟨"10.0.0.1", false, "example.com", tagDNS, "DNS"⟩

/-- Resolver oracles: the general pool always answers success with one
answer; the trusted pool always answers SERVFAIL. -/
def qEnvCex : QEnv where
  general := fun _ => some ⟨0, 1⟩
  trusted := fun _ => some ⟨2, 0⟩

/-- The initial query-consumption state. -/
def qInit : QState := ⟨0, 0, []⟩

/-! ### Helper lemmas -/

/-- Masking an address twice with the same length is the same as masking
it once. -/
theorem maskAddr_idem (ip : IPAddr) (bits : Nat) :
    maskAddr (maskAddr ip bits) bits = maskAddr ip bits := by
  have hpos : ∀ n : Nat, 0 < 2 ^ n := fun n => pow_pos (by norm_num) n
  cases ip <;> simp [maskAddr, Nat.mul_div_cancel _ (hpos _)]

/-- Parsing the fake prefix back yields the fake prefix itself, because
its address part is already masked. -/
theorem parseCIDRNet_fakeCIDR (addr : IPAddr) :
    parseCIDRNet (fakeCIDR addr) = fakeCIDR addr := by
  cases addr <;> simp [parseCIDRNet, fakeCIDR, isIPv6, maskAddr_idem]

/-- When every probe in the window misses, the poll loop sleeps through
all its fuel and ends in the fallback. -/
theorem pollCache_all_miss (probe : Nat → Option ASNInfo) (addr : IPAddr) (uuid : String) :
    ∀ (fuel k : Nat), (∀ j, k ≤ j → j < k + fuel → probe j = none) →
      pollCache probe addr uuid k fuel =
        List.replicate fuel WorkerEvent.sleepSec ++ fallbackEvents addr uuid
  | 0, k, _ => by simp [pollCache]
  | fuel + 1, k, h => by
    have hk : probe k = none := h k (le_refl _) (by omega)
    have ih := pollCache_all_miss probe addr uuid fuel (k + 1)
      (fun j hj1 hj2 => h j (by omega) (by omega))
    simp [pollCache, hk, ih, List.replicate_succ]

/-- The poll loop performs exactly one infrastructure upsert, whatever
the cache does. -/
theorem infraUpserts_pollCache (probe : Nat → Option ASNInfo) (addr : IPAddr) (uuid : String) :
    ∀ (fuel k : Nat), (infraUpserts (pollCache probe addr uuid k fuel)).length = 1
  | 0, k => by simp [pollCache, fallbackEvents, infraUpserts, isInfraUpsert]
  | fuel + 1, k => by
    cases hp : probe k with
    | some r => simp [pollCache, hp, infraUpserts, isInfraUpsert]
    | none =>
      simpa [pollCache, hp, infraUpserts, isInfraUpsert] using
        infraUpserts_pollCache probe addr uuid fuel (k + 1)

/-! ### Claims -/

/-- C3: when the re-probe and all 30 polls miss the ASN cache, the worker
performs exactly one infrastructure upsert with ASN 0, description
"Unknown", source "RIR" and the /24 (IPv4) or /48 (IPv6) fake prefix, and
then writes a cache update carrying the same ASN, description, source and
prefix, with the Address field set to the network start of that
prefix. -/
theorem asn_timeout_fallback (probe : Nat → Option ASNInfo) (addr : IPAddr) (uuid : String)
    (h : ∀ k, k ≤ 30 → probe k = none) :
    nextInfraInfo probe addr uuid =
      WorkerEvent.sendASN addr ::
        (List.replicate 30 WorkerEvent.sleepSec ++
         [WorkerEvent.upsertInfra 0 "Unknown" addr (fakeCIDR addr) "RIR" uuid,
          WorkerEvent.cacheUpdate
            ⟨(fakeCIDR addr).net, 0, fakeCIDR addr, "Unknown", requestsRIR, "RIR"⟩]) := by
  have h0 : probe 0 = none := h 0 (by omega)
  have hp := pollCache_all_miss probe addr uuid 30 1 (fun j hj1 hj2 => h j (by omega))
  simp [nextInfraInfo, h0, hp, fallbackEvents, parseCIDRFirst, parseCIDRNet_fakeCIDR]

/-- Witness for C3 at the address 198.51.100.7 with an always-empty
cache. -/
theorem asn_timeout_fallback_witness :
    nextInfraInfo (fun _ => none) (IPAddr.v4 3325256711) "u" =
      WorkerEvent.sendASN (IPAddr.v4 3325256711) ::
        (List.replicate 30 WorkerEvent.sleepSec ++
         [WorkerEvent.upsertInfra 0 "Unknown" (IPAddr.v4 3325256711)
            (fakeCIDR (IPAddr.v4 3325256711)) "RIR" "u",
          WorkerEvent.cacheUpdate
            ⟨(fakeCIDR (IPAddr.v4 3325256711)).net, 0, fakeCIDR (IPAddr.v4 3325256711),
             "Unknown", requestsRIR, "RIR"⟩]) :=
  asn_timeout_fallback (fun _ => none) (IPAddr.v4 3325256711) "u" (fun _ _ => rfl)

/-- C7: for every dequeued address request the worker performs exactly
one infrastructure upsert — from the re-probe hit, from a poll hit, or
from the synthesized fallback — never zero and never more than one. -/
theorem one_infra_upsert_per_request (probe : Nat → Option ASNInfo) (addr : IPAddr)
    (uuid : String) :
    (infraUpserts (nextInfraInfo probe addr uuid)).length = 1 := by
  cases hp : probe 0 with
  | some r => simp [nextInfraInfo, hp, infraUpserts, isInfraUpsert]
  | none =>
    simpa [nextInfraInfo, hp, infraUpserts, isInfraUpsert] using
      infraUpserts_pollCache probe addr uuid 30 1

/-- C2 (amended): for every DNSRequest or AddrRequest with a non-empty
identifier (Name, resp. Address) entering `Process` with a non-cancelled
context, the side effects run before the filter is consulted and are the
same whatever the filter contains; the first arrival is forwarded
unchanged, the identifier is recorded, and a second arrival of the same
identifier is swallowed (returns null) while its side effects still run.
A datum with an empty identifier is always forwarded and never
recorded. -/
theorem dedup_after_effects (env : Env) (fl : List String) (d : PData) (h : pid d ≠ "") :
    (ProcessStep env fl d).1 = sideEffects env d ∧
    (ProcessStep env fl d).2.1 = (if pid d ∈ fl then none else some d) ∧
    (ProcessStep env fl d).2.2.1 = pid d :: fl ∧
    (ProcessStep env fl d).2.2.2 = none ∧
    (ProcessStep env (pid d :: fl) d).1 = sideEffects env d ∧
    (ProcessStep env (pid d :: fl) d).2.1 = none := by
  by_cases hm : pid d ∈ fl <;> simp [ProcessStep, h, hm]

/-- Witness for C2: "a.com" is forwarded on first arrival and swallowed
on the second, with identical side effects. -/
theorem dedup_after_effects_witness :
    (ProcessStep baseEnv [] (PData.dns reqW2)).1 = sideEffects baseEnv (PData.dns reqW2) ∧
    (ProcessStep baseEnv [] (PData.dns reqW2)).2.1 =
      (if pid (PData.dns reqW2) ∈ ([] : List String) then none else some (PData.dns reqW2)) ∧
    (ProcessStep baseEnv [] (PData.dns reqW2)).2.2.1 = pid (PData.dns reqW2) :: [] ∧
    (ProcessStep baseEnv [] (PData.dns reqW2)).2.2.2 = none ∧
    (ProcessStep baseEnv (pid (PData.dns reqW2) :: []) (PData.dns reqW2)).1 =
      sideEffects baseEnv (PData.dns reqW2) ∧
    (ProcessStep baseEnv (pid (PData.dns reqW2) :: []) (PData.dns reqW2)).2.1 = none :=
  dedup_after_effects baseEnv [] (PData.dns reqW2) (by decide)

/-- Counterexample to C2 as stated: a DNSRequest whose Name is empty has
the empty identifier, and its second (and every) arrival is still
forwarded rather than returning null, because `Process` only consults the
filter when the identifier is non-empty. -/
theorem dedup_empty_id_counterexample :
    pid (PData.dns emptyNameReq) = "" ∧
    (ProcessStep baseEnv
        (ProcessStep baseEnv [] (PData.dns emptyNameReq)).2.2.1
        (PData.dns emptyNameReq)).2.1 = some (PData.dns emptyNameReq) := by
  decide

/-- C10: every AddrRequest that `findNamesAndAddresses` re-injects from a
TXT/SOA/SPF payload has its InScope field left false, and the address
handler rejects such a request before any infrastructure upsert or
enqueue. -/
theorem payload_addr_not_inscope (env : Env) (data dom : String) (r : AddrRequest)
    (h : Event.reinjectAddr r ∈ findNamesAndAddresses env data dom) :
    r.InScope = false ∧ addrRequest env r = ([], none) := by
  have hin : r.InScope = false := by
    unfold findNamesAndAddresses at h
    rcases List.mem_append.mp h with h1 | h2
    · obtain ⟨ip, _, hip⟩ := List.mem_map.mp h1
      have hr : (⟨ip, false, dom, tagDNS, "DNS"⟩ : AddrRequest) = r := by
        simpa using hip
      rw [← hr]
    · obtain ⟨nm, _, hnm⟩ := List.mem_filterMap.mp h2
      by_cases hd : goToLower (env.whichDomain nm) = ""
      · simp [hd] at hnm
      · simp [hd] at hnm
  exact ⟨hin, by simp [addrRequest, hin]⟩

/-- Witness for C10: the address 10.0.0.1 extracted from a payload. -/
theorem payload_addr_not_inscope_witness :
    addrW10.InScope = false ∧ addrRequest env10 addrW10 = ([], none) :=
  payload_addr_not_inscope env10 "x" "example.com" addrW10 (by decide)

/-- Record iteration halts on the first erroring dispatch: indices after
it contribute no events, and the first error is returned. -/
theorem runInserts_break (env : Env) (req : DNSRequest) (i : Nat) (is2 : List Nat)
    (e : String) :
    ∀ is1 : List Nat, (∀ j ∈ is1, (dispatch env req j).2 = none) →
      (dispatch env req i).2 = some e →
      runInserts env req (is1 ++ i :: is2) =
        ((is1.map fun j => (dispatch env req j).1).flatten ++ (dispatch env req i).1, some e)
  | [], _, h2 => by simp [runInserts, h2]
  | j :: is1, h1, h2 => by
    have hj : (dispatch env req j).2 = none := h1 j (by simp)
    have ih := runInserts_break env req i is2 e is1 (fun x hx => h1 x (by simp [hx])) h2
    simp [runInserts, hj, ih]

/-- C9: when a graph upsert for a record errors, the remaining records of
that request are not processed, the error is logged (an `Event.logged`)
rather than returned by the stage (whose error return stays nil), and the
dedup decision is still applied to the input. -/
theorem graph_error_stops (env : Env) (req : DNSRequest) (fl : List String) (e : String)
    (is1 : List Nat) (i : Nat) (is2 : List Nat)
    (h1 : ∀ j ∈ is1, (dispatch env req j).2 = none)
    (h2 : (dispatch env req i).2 = some e)
    (herr : (dnsRequest env req).2 = some e) :
    runInserts env req (is1 ++ i :: is2) =
      ((is1.map fun j => (dispatch env req j).1).flatten ++ (dispatch env req i).1, some e) ∧
    (ProcessStep env fl (PData.dns req)).1 = (dnsRequest env req).1 ++ [Event.logged e] ∧
    (ProcessStep env fl (PData.dns req)).2.2.2 = none ∧
    (ProcessStep env fl (PData.dns req)).2.1 =
      (if req.Name = "" then some (PData.dns req)
       else if req.Name ∈ fl then none else some (PData.dns req)) := by
  refine ⟨runInserts_break env req i is2 e is1 h1 h2, ?_, ?_, ?_⟩ <;>
    by_cases hn : req.Name = "" <;> by_cases hm : req.Name ∈ fl <;>
      simp [ProcessStep, sideEffects, herr, pid, hn, hm]

/-- Witness for C9: two A records where the graph store rejects the
first upsert; the second record is never dispatched and the error is
logged while the request is still forwarded. -/
theorem graph_error_stops_witness :
    runInserts envC9 reqC9 ([] ++ 0 :: [1]) =
      ((([] : List Nat).map fun j => (dispatch envC9 reqC9 j).1).flatten ++
        (dispatch envC9 reqC9 0).1,
       some "g failed to insert A record: boom") ∧
    (ProcessStep envC9 [] (PData.dns reqC9)).1 =
      (dnsRequest envC9 reqC9).1 ++ [Event.logged "g failed to insert A record: boom"] ∧
    (ProcessStep envC9 [] (PData.dns reqC9)).2.2.2 = none ∧
    (ProcessStep envC9 [] (PData.dns reqC9)).2.1 =
      (if reqC9.Name = "" then some (PData.dns reqC9)
       else if reqC9.Name ∈ ([] : List String) then none else some (PData.dns reqC9)) :=
  graph_error_stops envC9 reqC9 [] "g failed to insert A record: boom" [] 0 [1]
    (by simp) (by decide) (by decide)

/-- Element access at the junction of an append. -/
theorem getD_append_length (l1 l2 : List DNSAnswer) (x d : DNSAnswer) :
    (l1 ++ x :: l2).getD l1.length d = x := by
  induction l1 with
  | nil => rfl
  | cons a as ih => simpa using ih

/-- The first loop of `dnsRequest` stops at the first CNAME record: it
hands the request — with the records before and including the CNAME
normalised — to `insertCNAME` at the CNAME's index. -/
theorem scanRecords_cname (env : Env) (req : DNSRequest) (c : DNSAnswer)
    (post : List DNSAnswer) (hc : c.Rtype = typeCNAME) :
    ∀ (pre done : List DNSAnswer), (∀ r ∈ pre, r.Rtype ≠ typeCNAME) →
      scanRecords env req done (pre ++ c :: post) =
        insertCNAME env
          { req with
            Records := done.reverse ++ (pre.map normalizeRec ++ normalizeRec c :: post) }
          (done.length + pre.length)
  | [], done, _ => by simp [scanRecords, hc]
  | r :: pre, done, hpre => by
    have hr : ¬ r.Rtype = typeCNAME := hpre r (by simp)
    have ih := scanRecords_cname env req c post hc pre (normalizeRec r :: done)
      (fun x hx => hpre x (by simp [hx]))
    have hlist : (normalizeRec r :: done).reverse ++
        (pre.map normalizeRec ++ normalizeRec c :: post) =
        done.reverse ++ ((r :: pre).map normalizeRec ++ normalizeRec c :: post) := by
      simp
    have hidx : (normalizeRec r :: done).length + pre.length =
        done.length + (r :: pre).length := by
      simp; omega
    rw [List.cons_append]
    rw [show scanRecords env req done (r :: (pre ++ c :: post)) =
        scanRecords env req (normalizeRec r :: done) (pre ++ c :: post) by
      simp [scanRecords, hr]]
    rw [ih, hlist, hidx]

/-- When no record is a CNAME, the first loop of `dnsRequest` normalises
every record and dispatches them all in order. -/
theorem scanRecords_nocname (env : Env) (req : DNSRequest) :
    ∀ (rest done : List DNSAnswer), (∀ r ∈ rest, r.Rtype ≠ typeCNAME) →
      scanRecords env req done rest =
        runInserts env { req with Records := done.reverse ++ rest.map normalizeRec }
          (List.range (done.length + rest.length))
  | [], done, _ => by simp [scanRecords]
  | r :: rest, done, h => by
    have hr : ¬ r.Rtype = typeCNAME := h r (by simp)
    have ih := scanRecords_nocname env req rest (normalizeRec r :: done)
      (fun x hx => h x (by simp [hx]))
    have hlist : (normalizeRec r :: done).reverse ++ rest.map normalizeRec =
        done.reverse ++ (r :: rest).map normalizeRec := by
      simp
    have hidx : (normalizeRec r :: done).length + rest.length =
        done.length + (r :: rest).length := by
      simp; omega
    rw [show scanRecords env req done (r :: rest) =
        scanRecords env req (normalizeRec r :: done) rest by
      simp [scanRecords, hr]]
    rw [ih, hlist, hidx]

/-- The event component of `insertCNAME`, independent of the graph
store's error behaviour. -/
theorem insertCNAME_fst (env : Env) (req : DNSRequest) (i : Nat) :
    (insertCNAME env req i).1 =
      (let target := removeLastDot (recAt req i).Data
       if target = "" then []
       else
         match env.etld target with
         | none => []
         | some dom =>
           if dom = "" then []
           else
             [Event.reinjectDNS ⟨target, goToLower dom, [], tagDNS, "DNS"⟩,
              Event.upsert (GraphWrite.cname req.Name target req.Source env.uuid)]) := by
  unfold insertCNAME
  by_cases h1 : removeLastDot (recAt req i).Data = ""
  · simp [h1]
  · cases h2 : env.etld (removeLastDot (recAt req i).Data) with
    | none => simp [h1, h2]
    | some dom => by_cases h3 : dom = "" <;> simp [h1, h2, h3]

/-- C1 (amended): for every non-blacklisted DNSRequest whose record array
contains a CNAME, only the first CNAME is processed: when the normalised
CNAME data yields a non-empty FQDN with an extractable registrable
domain, the events are exactly one re-injected DNSRequest for the target
followed by exactly one UpsertCNAME graph write; when extraction fails
there is no event at all; in both cases no sibling record contributes any
action. -/
theorem cname_short_circuit (env : Env) (req : DNSRequest) (pre post : List DNSAnswer)
    (c : DNSAnswer)
    (hsplit : req.Records = pre ++ c :: post)
    (hc : c.Rtype = typeCNAME)
    (hpre : ∀ r ∈ pre, r.Rtype ≠ typeCNAME)
    (hbl : env.blacklisted req.Name = false) :
    (dnsRequest env req).1 =
      (let target := removeLastDot (normName c.Data)
       if target = "" then []
       else
         match env.etld target with
         | none => []
         | some dom =>
           if dom = "" then []
           else
             [Event.reinjectDNS ⟨target, goToLower dom, [], tagDNS, "DNS"⟩,
              Event.upsert (GraphWrite.cname req.Name target req.Source env.uuid)]) := by
  have h1 : dnsRequest env req = scanRecords env req [] (pre ++ c :: post) := by
    simp [dnsRequest, hbl, ← hsplit]
  rw [h1, scanRecords_cname env req c post hc pre [] hpre, insertCNAME_fst]
  have hrec : recAt
      { req with
        Records := ([] : List DNSAnswer).reverse ++
          (pre.map normalizeRec ++ normalizeRec c :: post) }
      (([] : List DNSAnswer).length + pre.length) = normalizeRec c := by
    have := getD_append_length (pre.map normalizeRec) post (normalizeRec c) ⟨"", 0, ""⟩
    simpa [recAt] using this
  rw [hrec]
  rfl

/-- Witness for C1: scenario S1 — a well-formed CNAME record followed by
an A record sibling produces exactly the CNAME re-injection and the CNAME
upsert. -/
theorem cname_short_circuit_witness :
    (dnsRequest envEx reqW1).1 =
      [Event.reinjectDNS ⟨"cdn.example.net", "example.net", [], tagDNS, "DNS"⟩,
       Event.upsert (GraphWrite.cname "www.example.com" "cdn.example.net" "DNS" "u")] := by
  have h := cname_short_circuit envEx reqW1 [] [⟨"www.example.com", 1, "1.2.3.4"⟩]
    ⟨"www.example.com", 5, "CDN.Example.NET."⟩ rfl rfl (by simp) rfl
  exact h.trans (by decide)

/-- Counterexample to C1 as stated: a request containing a CNAME record
with empty data (next to an A record sibling) produces zero graph writes
and zero re-injections, not exactly one of each. -/
theorem cname_missing_target_counterexample :
    (reqC1.Records.map fun r => r.Rtype).contains typeCNAME = true ∧
    envEx.blacklisted reqC1.Name = false ∧
    (dnsRequest envEx reqC1).1 = [] := by
  decide

/-- C6 (amended): for every non-blacklisted DNSRequest without a CNAME
record, every record's Name and Data are normalised before dispatch by
lowercasing and stripping all leading and trailing dots (`normName`); the
normalisation does not trim whitespace. -/
theorem records_normalized (env : Env) (req : DNSRequest)
    (hbl : env.blacklisted req.Name = false)
    (hnoc : ∀ r ∈ req.Records, r.Rtype ≠ typeCNAME) :
    dnsRequest env req =
      runInserts env { req with Records := req.Records.map normalizeRec }
        (List.range req.Records.length) := by
  have h := scanRecords_nocname env req req.Records [] hnoc
  simpa [dnsRequest, hbl] using h

/-- Witness for C6 at a request with one A record whose fields carry
uppercase letters and a trailing dot. -/
theorem records_normalized_witness :
    dnsRequest baseEnv reqW6 =
      runInserts baseEnv { reqW6 with Records := reqW6.Records.map normalizeRec }
        (List.range reqW6.Records.length) :=
  records_normalized baseEnv reqW6 rfl (by decide)

/-- Counterexample to C6 as stated: record data carrying a trailing space
is not whitespace-trimmed by the code's normalisation — the lowercased,
dot-trimmed value keeps the space (and an inner trailing dot would also
survive), and it is forwarded and stored in that shape, unlike the value
produced by lowercasing, whitespace-trimming and stripping the trailing
dot as the claim describes. -/
theorem normalization_whitespace_counterexample :
    normName "NS1.EXAMPLE.NET " = "ns1.example.net " ∧
    removeLastDot (goTrimSpace (goToLower "NS1.EXAMPLE.NET ")) = "ns1.example.net" ∧
    (dnsRequest envEx reqC6).1 =
      [Event.reinjectDNS ⟨"ns1.example.net ", "example.net", [], tagDNS, "DNS"⟩,
       Event.upsert (GraphWrite.ns "x.example.org" "ns1.example.net " "src" "u")] := by
  decide

/-- C4: for every DNSRequest passing the scope, service-label and
label-count checks whose parent subdomain is neither wildcard-suppressed
nor CNAME-suppressed, the classifier reports "forward"; when the count
exceeds MinForRecursive no SubdomainRequest is emitted, and otherwise
exactly one SubdomainRequest (Name = parent, Times = count) goes to the
external handlers, with an additional injection into the pipeline's root
channel exactly when the count is 1; `Process` then also emits the
ResolvedRequest and forwards the input. -/
theorem subreq_emission (env : ClsEnv) (st : SubState) (req : DNSRequest)
    (hsc : env.inScope req.Name = true)
    (hsvc : hasServiceLabel req.Name = false)
    (hl1 : 2 ≤ (splitDots req.Name).length)
    (hl2 : (splitDots req.Domain).length ≤ (splitDots req.Name).length - 1)
    (hw1 : ¬(st.counts (parentSub req.Name) + 1 = 1 ∧
             env.wildcardTest (parentSub req.Name) req.Domain = true))
    (hw2 : ¬(1 < st.counts (parentSub req.Name) + 1 ∧
             parentSub req.Name ∈ st.withinWildcards))
    (hc1 : ¬(st.counts (parentSub req.Name) + 1 = 1 ∧
             env.isCNAME (parentSub req.Name) = true))
    (hc2 : ¬(1 < st.counts (parentSub req.Name) + 1 ∧ parentSub req.Name ∈ st.cnames)) :
    (checkForSubdomains env st req).1 = true ∧
    (checkForSubdomains env st req).2.1 =
      (if env.minForRecursive < st.counts (parentSub req.Name) + 1 then []
       else
         SubEvent.sendSubdomain
             ⟨parentSub req.Name, req.Domain, req.Tag, req.Source,
              st.counts (parentSub req.Name) + 1⟩ ::
           (if st.counts (parentSub req.Name) + 1 = 1 then
              [SubEvent.toRoot
                ⟨parentSub req.Name, req.Domain, req.Tag, req.Source,
                 st.counts (parentSub req.Name) + 1⟩]
            else [])) ∧
    (subProcess env st (PData.dns req)).1 = some (PData.dns req) ∧
    (subProcess env st (PData.dns req)).2.1 =
      (checkForSubdomains env st req).2.1 ++
        [SubEvent.sendResolved ⟨req.Name, req.Domain, req.Records, req.Tag, req.Source⟩] := by
  have hn1 : ¬ (splitDots req.Name).length < 2 := Nat.not_lt.mpr hl1
  have hn2 : ¬ (splitDots req.Name).length - 1 < (splitDots req.Domain).length :=
    Nat.not_lt.mpr hl2
  have hchk : (checkForSubdomains env st req).1 = true ∧
      (checkForSubdomains env st req).2.1 =
        (if env.minForRecursive < st.counts (parentSub req.Name) + 1 then []
         else
           SubEvent.sendSubdomain
               ⟨parentSub req.Name, req.Domain, req.Tag, req.Source,
                st.counts (parentSub req.Name) + 1⟩ ::
             (if st.counts (parentSub req.Name) + 1 = 1 then
                [SubEvent.toRoot
                  ⟨parentSub req.Name, req.Domain, req.Tag, req.Source,
                   st.counts (parentSub req.Name) + 1⟩]
              else [])) := by
    have hw1b : ¬(st.counts (parentSub req.Name) = 0 ∧
        env.wildcardTest (parentSub req.Name) req.Domain = true) := by
      simpa using hw1
    have hw2b : ¬(0 < st.counts (parentSub req.Name) ∧
        parentSub req.Name ∈ st.withinWildcards) := by
      simpa using hw2
    have hc1b : ¬(st.counts (parentSub req.Name) = 0 ∧
        env.isCNAME (parentSub req.Name) = true) := by
      simpa using hc1
    have hc2b : ¬(0 < st.counts (parentSub req.Name) ∧
        parentSub req.Name ∈ st.cnames) := by
      simpa using hc2
    by_cases hmin : env.minForRecursive < st.counts (parentSub req.Name) + 1 <;>
      simp [checkForSubdomains, timesFor, hn1, hn2, hw1b, hw2b, hc1b, hc2b, hmin]
  refine ⟨hchk.1, hchk.2, ?_, ?_⟩ <;>
    simp [subProcess, hsc, hsvc, hchk.1]

/-- Witness for C4: first observation of "sub.example.com" with threshold
2 emits the SubdomainRequest and injects it into the root channel. -/
theorem subreq_emission_witness :
    (checkForSubdomains clsEnvW stW4 reqW4).1 = true ∧
    (checkForSubdomains clsEnvW stW4 reqW4).2.1 =
      (if clsEnvW.minForRecursive < stW4.counts (parentSub reqW4.Name) + 1 then []
       else
         SubEvent.sendSubdomain
             ⟨parentSub reqW4.Name, reqW4.Domain, reqW4.Tag, reqW4.Source,
              stW4.counts (parentSub reqW4.Name) + 1⟩ ::
           (if stW4.counts (parentSub reqW4.Name) + 1 = 1 then
              [SubEvent.toRoot
                ⟨parentSub reqW4.Name, reqW4.Domain, reqW4.Tag, reqW4.Source,
                 stW4.counts (parentSub reqW4.Name) + 1⟩]
            else [])) ∧
    (subProcess clsEnvW stW4 (PData.dns reqW4)).1 = some (PData.dns reqW4) ∧
    (subProcess clsEnvW stW4 (PData.dns reqW4)).2.1 =
      (checkForSubdomains clsEnvW stW4 reqW4).2.1 ++
        [SubEvent.sendResolved
          ⟨reqW4.Name, reqW4.Domain, reqW4.Records, reqW4.Tag, reqW4.Source⟩] :=
  subreq_emission clsEnvW stW4 reqW4 rfl (by decide) (by decide) (by decide)
    (by decide) (by decide) (by decide) (by decide)

/-- C8: once the parent subdomain is in the wildcard set and has a
recorded occurrence (so every later observation sees a count above 1),
the classifier answers "do not forward" — no SubdomainRequest and no
ResolvedRequest — and the parent stays in the set; the same holds for the
CNAME set. -/
theorem wildcard_sticky (env : ClsEnv) (st : SubState) (req : DNSRequest) (sub : String)
    (hsc : env.inScope req.Name = true)
    (hsvc : hasServiceLabel req.Name = false)
    (hl1 : 2 ≤ (splitDots req.Name).length)
    (hl2 : (splitDots req.Domain).length ≤ (splitDots req.Name).length - 1)
    (hpar : parentSub req.Name = sub)
    (hcount : 1 ≤ st.counts sub)
    (hmem : sub ∈ st.withinWildcards ∨ sub ∈ st.cnames) :
    (checkForSubdomains env st req).1 = false ∧
    (checkForSubdomains env st req).2.1 = [] ∧
    (subProcess env st (PData.dns req)).1 = some (PData.dns req) ∧
    (subProcess env st (PData.dns req)).2.1 = [] ∧
    (sub ∈ st.withinWildcards → sub ∈ (checkForSubdomains env st req).2.2.withinWildcards) ∧
    (sub ∈ st.cnames → sub ∈ (checkForSubdomains env st req).2.2.cnames) := by
  have hn1 : ¬ (splitDots req.Name).length < 2 := Nat.not_lt.mpr hl1
  have hn2 : ¬ (splitDots req.Name).length - 1 < (splitDots req.Domain).length :=
    Nat.not_lt.mpr hl2
  have ht1 : ¬ st.counts sub + 1 = 1 := by omega
  have ht2 : 1 < st.counts sub + 1 := by omega
  by_cases hw : sub ∈ st.withinWildcards
  · have hchk : checkForSubdomains env st req =
        (false, [], (timesFor st sub).2) := by
      simp [checkForSubdomains, hn1, hn2, hpar, timesFor, ht1, ht2, hw]
    refine ⟨by rw [hchk], by rw [hchk], ?_, ?_, ?_, ?_⟩
    · simp [subProcess, hsc, hsvc, hchk]
    · simp [subProcess, hsc, hsvc, hchk]
    · intro h2; rw [hchk]; simpa [timesFor] using h2
    · intro h2; rw [hchk]; simpa [timesFor] using h2
  · have hcn : sub ∈ st.cnames := hmem.resolve_left hw
    have hchk : checkForSubdomains env st req =
        (false, [], (timesFor st sub).2) := by
      simp [checkForSubdomains, hn1, hn2, hpar, timesFor, ht1, ht2, hw, hcn]
    refine ⟨by rw [hchk], by rw [hchk], ?_, ?_, ?_, ?_⟩
    · simp [subProcess, hsc, hsvc, hchk]
    · simp [subProcess, hsc, hsvc, hchk]
    · intro h2; rw [hchk]; simpa [timesFor] using h2
    · intro h2; rw [hchk]; simpa [timesFor] using h2

/-- Witness for C8: "sub.example.com" sits in the wildcard set with count
1; a second observation is fully suppressed and the set keeps it. -/
theorem wildcard_sticky_witness :
    (checkForSubdomains clsEnvW stW8 reqW4).1 = false ∧
    (checkForSubdomains clsEnvW stW8 reqW4).2.1 = [] ∧
    (subProcess clsEnvW stW8 (PData.dns reqW4)).1 = some (PData.dns reqW4) ∧
    (subProcess clsEnvW stW8 (PData.dns reqW4)).2.1 = [] ∧
    ("sub.example.com" ∈ stW8.withinWildcards →
      "sub.example.com" ∈ (checkForSubdomains clsEnvW stW8 reqW4).2.2.withinWildcards) ∧
    ("sub.example.com" ∈ stW8.cnames →
      "sub.example.com" ∈ (checkForSubdomains clsEnvW stW8 reqW4).2.2.cnames) :=
  wildcard_sticky clsEnvW stW8 reqW4 "sub.example.com" rfl (by decide) (by decide)
    (by decide) (by decide) (by decide) (by decide)

/-- Every iteration of the retry loop queries the general pool: the
loop's trace extension is a block of at most `fuel` general-pool
queries. -/
theorem genRetry_trace (env : QEnv) :
    ∀ (fuel : Nat) (resp : DNSResp) (s : QState),
      ∃ j, j ≤ fuel ∧
        (genRetry env resp s fuel).2.trace = s.trace ++ List.replicate j Pool.general
  | 0, resp, s => ⟨0, by omega, by simp [genRetry]⟩
  | fuel + 1, resp, s => by
    by_cases hr : resp.rcode = rcodeSuccess
    · exact ⟨0, by omega, by simp [genRetry, hr]⟩
    · cases hg : env.general s.g with
      | none =>
        exact ⟨1, by omega, by simp [genRetry, hr, askPool, hg]⟩
      | some r =>
        by_cases h1 : r.rcode = rcodeNameError
        · exact ⟨1, by omega, by simp [genRetry, hr, askPool, hg, h1]⟩
        · by_cases h2 : r.rcode = rcodeSuccess ∧ r.answers = 0
          · have hsn : ¬ rcodeSuccess = rcodeNameError := by decide
            exact ⟨1, by omega, by simp [genRetry, hr, askPool, hg, h1, h2, hsn]⟩
          · obtain ⟨j, hj, htr⟩ :=
              genRetry_trace env fuel r ⟨s.g + 1, s.t, s.trace ++ [Pool.general]⟩
            exact ⟨j + 1, by omega, by
              simp [genRetry, hr, askPool, hg, h1, h2, List.replicate_succ]
              simpa using htr⟩

/-- One phase of `fwdQuery` queries its entry pool once and then the
general pool at most 49 times. -/
theorem fwdPhase_trace (env : QEnv) (p : Pool) (s : QState) :
    ∃ j, j ≤ 49 ∧
      (fwdPhase env p s).2.trace = s.trace ++ p :: List.replicate j Pool.general := by
  obtain ⟨o, s2, ho, hs2⟩ :
      ∃ o s2, askPool env p s = (o, s2) ∧ s2.trace = s.trace ++ [p] := by
    cases p <;> exact ⟨_, _, rfl, rfl⟩
  cases o with
  | none => exact ⟨0, by omega, by simp [fwdPhase, ho, hs2]⟩
  | some r =>
    by_cases h1 : r.rcode = rcodeNameError
    · exact ⟨0, by omega, by simp [fwdPhase, ho, h1, hs2]⟩
    · by_cases h2 : r.rcode = rcodeSuccess ∧ r.answers = 0
      · have hsn : ¬ rcodeSuccess = rcodeNameError := by decide
        exact ⟨0, by omega, by simp [fwdPhase, ho, h1, h2, hs2, hsn]⟩
      · obtain ⟨j, hj, htr⟩ := genRetry_trace env 49 r s2
        rcases hgen : genRetry env r s2 49 with ⟨out, s3⟩
        rw [hgen] at htr
        have hs3 : s3.trace = s.trace ++ p :: List.replicate j Pool.general := by
          simpa [hs2] using htr
        cases out with
        | failed m => exact ⟨j, hj, by simp [fwdPhase, ho, h1, h2, hgen, hs3]⟩
        | ok r2 =>
          by_cases hr2 : r2.rcode = rcodeSuccess
          · exact ⟨j, hj, by simp [fwdPhase, ho, h1, h2, hgen, hr2, hs3]⟩
          · exact ⟨j, hj, by simp [fwdPhase, ho, h1, h2, hgen, hr2, hs3]⟩

/-- A maximal general-pool block is fully taken by `takeWhile`. -/
theorem takeWhile_replicate_self (k : Nat) :
    ((List.replicate k Pool.general).takeWhile isGeneralPool) =
      List.replicate k Pool.general := by
  induction k with
  | zero => rfl
  | succ k ih => simp [List.replicate_succ, List.takeWhile_cons, isGeneralPool, ih]

/-- `takeWhile` stops exactly at the trusted query. -/
theorem takeWhile_replicate_trusted (k : Nat) (l : List Pool) :
    ((List.replicate k Pool.general ++ Pool.trusted :: l).takeWhile isGeneralPool) =
      List.replicate k Pool.general := by
  induction k with
  | zero => simp [List.takeWhile_cons, isGeneralPool]
  | succ k ih => simp [List.replicate_succ, List.takeWhile_cons, isGeneralPool, ih]

/-- Dropping the general-pool block exposes the remainder. -/
theorem drop_replicate_general (k : Nat) (l : List Pool) :
    (List.replicate k Pool.general ++ l).drop k = l := by
  have h := List.drop_left (List.replicate k Pool.general) l
  rwa [List.length_replicate] at h

/-- A replicated general block is all-general. -/
theorem allGeneral_replicate (j : Nat) :
    allGeneral (List.replicate j Pool.general) = true := by
  induction j with
  | zero => rfl
  | succ j ih => simp [allGeneral, isGeneralPool, List.replicate_succ, List.all_cons, ih]

/-- C5 (amended): a complete `fwdQuery` run sends between 1 and 50
queries to the general pool, then — if that phase succeeds — exactly one
query to the trusted pool, and its up-to-49 retries go back to the
GENERAL pool, not the trusted one. -/
theorem fwd_query_trace_shape (env : QEnv) :
    traceShapeOK ((fwdQuery env qInit).2.trace) = true := by
  obtain ⟨j1, hj1, htr1⟩ := fwdPhase_trace env Pool.general qInit
  rcases hph : fwdPhase env Pool.general qInit with ⟨out, s2⟩
  rw [hph] at htr1
  have hs2 : s2.trace = List.replicate (j1 + 1) Pool.general := by
    simpa [qInit, List.replicate_succ] using htr1
  cases out with
  | failed m =>
    have htr : (fwdQuery env qInit).2.trace = List.replicate (j1 + 1) Pool.general := by
      simp [fwdQuery, hph, hs2]
    rw [htr]
    unfold traceShapeOK
    rw [takeWhile_replicate_self]
    simp only [List.length_replicate, List.drop_replicate]
    simp only [Nat.sub_self, List.replicate_zero]
    simp only [Bool.and_eq_true, decide_eq_true_eq]
    exact ⟨⟨by omega, by omega⟩, trivial⟩
  | ok r =>
    obtain ⟨j2, hj2, htr2⟩ := fwdPhase_trace env Pool.trusted s2
    have htr : (fwdQuery env qInit).2.trace =
        List.replicate (j1 + 1) Pool.general ++
          Pool.trusted :: List.replicate j2 Pool.general := by
      simp [fwdQuery, hph]
      rw [htr2, hs2]
    rw [htr]
    unfold traceShapeOK
    rw [takeWhile_replicate_trusted]
    simp only [List.length_replicate, drop_replicate_general]
    simp only [Bool.and_eq_true, decide_eq_true_eq]
    exact ⟨⟨by omega, by omega⟩, ⟨allGeneral_replicate j2, by simpa using hj2⟩⟩

/-- Counterexample to C5 as stated: with a general pool that always
answers successfully and a trusted pool that always answers SERVFAIL, the
retry after the trusted pool's non-success response goes to the GENERAL
pool — the trusted pool is queried exactly once and the answered response
that `fwdQuery` returns came from the general pool. -/
theorem fwd_query_trusted_retry_counterexample :
    (fwdQuery qEnvCex qInit).1 = QOut.ok ⟨0, 1⟩ ∧
    (fwdQuery qEnvCex qInit).2.trace = [Pool.general, Pool.trusted, Pool.general] := by
  decide

end AmassEnum
